import Mathlib

/-!
Shallow embedding of the django-store checkout/payment settlement core
(`store/core/views.py` together with the data model of `store/core/models.py`).

Monetary values (Python floats in the source) are modelled as exact rationals;
database tables are modelled as lists of records, and each Django `save()`
is a by-primary-key replacement in the corresponding list.  The session cart
(a Python dict with string keys) is an insertion-ordered association list.
Gateway HTTP exchanges are parameters of the embedded views: a constructor per
shape of parsed response body, plus one for transport failure.
-/

namespace Store

/-- Python exceptions that can escape the embedded code paths uncaught. -/
inductive PyError
  | valueError
  | doesNotExist
  | multipleObjects
  | attributeError
deriving DecidableEq, Repr

/-- Session cart: Python dict from string key to integer count. -/
abbrev Cart := List (String × Int)

/-- Python `d.get(k)`. -/
def dictGet (cart : Cart) (k : String) : Option Int :=
  (cart.find? (fun e => e.1 == k)).map (·.2)

/-- Python `d.get(k, default)`. -/
def dictGetD (cart : Cart) (k : String) (d : Int) : Int :=
  (dictGet cart k).getD d

/-- Python `d[k] = v`: an existing key keeps its position, a new key is appended. -/
def dictSet (cart : Cart) (k : String) (v : Int) : Cart :=
  if (cart.find? (fun e => e.1 == k)).isSome then
    cart.map (fun e => if e.1 == k then (k, v) else e)
  else cart ++ [(k, v)]

/-- Python `s.isdigit()` restricted to ASCII digits (the only keys the store produces). -/
def pyIsDigit (l : List Char) : Bool :=
  !l.isEmpty && l.all (fun c => '0' ≤ c && c ≤ '9')

/-- Numeric value of a string of decimal digits. -/
def natOfDigits (l : List Char) : Nat :=
  l.foldl (fun n c => n * 10 + (c.toNat - '0'.toNat)) 0

/-- Python `int(s)` guarded by `s.isdigit()`: `some` exactly on digit strings. -/
def pyInt? (s : String) : Option Nat :=
  if pyIsDigit s.data then some (natOfDigits s.data) else none

/-- Product row (`models.Product`): the fields the checkout core reads. -/
structure Product where
  id : Nat
  name : String
  price : Int
  discount : ℚ
  enabled : Bool
  count : Int
  deleted : Bool
deriving DecidableEq, Repr

/-- Primary-key lookup in the products table. -/
def findProduct (products : List Product) (pid : Nat) : Option Product :=
  products.find? (fun p => p.id == pid)

/-- views.add_to_cart: `if obj.count > 0 and obj.enabled: cart[str(obj.id)] = cart.get(str(obj.id), 0) + 1`. -/
def add_to_cart (cart : Cart) (obj : Product) : Cart :=
  if obj.count > 0 && obj.enabled then
    dictSet cart (toString obj.id) (dictGetD cart (toString obj.id) 0 + 1)
  else cart

/-- Python `round(x, 2)` on exact values: round half to even at two decimals. -/
def roundHalfEven (q : ℚ) : ℤ :=
  let f := ⌊q⌋
  let r := q - (f : ℚ)
  if r < 1/2 then f
  else if 1/2 < r then f + 1
  else if f % 2 = 0 then f else f + 1

/-- Two-decimal rounding used by `get_cart_total_price`. -/
def round2 (q : ℚ) : ℚ :=
  (roundHalfEven (q * 100) : ℚ) / 100

/-- Contribution of one cart entry to the loop of views.get_cart_total_price:
    a non-digit key raises ValueError inside the per-item try and is skipped,
    a digit key with no matching product is skipped, and a negative stored
    count fails `str(count).isdigit()` and is treated as 0. -/
def lineContribution (products : List Product) (e : String × Int) : ℚ :=
  match pyInt? e.1 with
  | none => 0
  | some pid =>
    match findProduct products pid with
    | none => 0
    | some p => (p.price : ℚ) * (1 - p.discount / 100) * ((if 0 ≤ e.2 then e.2 else 0) : ℤ)

/-- views.get_cart_total_price. -/
def get_cart_total_price (products : List Product) (cart : Cart) : ℚ :=
  if cart = [] then 0
  else if cart.filterMap (fun e => pyInt? e.1) = [] then 0
  else round2 (cart.foldl (fun acc e => acc + lineContribution products e) 0)

/-- One entry of the `cart_items` list built by views.prepare_cart_data. -/
structure CartLine where
  productId : Nat
  count : Int
  price : ℚ
  discount : ℚ
  total : ℚ
deriving DecidableEq, Repr

/-- Aggregates returned by views.prepare_cart_data. -/
structure CartTotals where
  items : List CartLine
  subtotal : ℚ
  discount_total : ℚ
  vat_amount : ℚ
  total : ℚ
deriving DecidableEq, Repr

/-- Item loop of views.prepare_cart_data: `int(item_id)` raises ValueError on a
    non-digit key (uncaught there), a missing product raises DoesNotExist which
    is caught and skips the entry.  Returns the built lines and the subtotal. -/
def prepareLoop (products : List Product) : List (String × Int) → Except PyError (List CartLine × ℚ)
  | [] => .ok ([], 0)
  | e :: rest =>
    match pyInt? e.1 with
    | none => .error .valueError
    | some pid =>
      match findProduct products pid with
      | none => prepareLoop products rest
      | some p =>
        match prepareLoop products rest with
        | .error err => .error err
        | .ok (lines, sub) =>
          .ok (⟨pid, e.2, (p.price : ℚ), p.discount,
                (p.price : ℚ) * (e.2 : ℚ) * (1 - p.discount / 100)⟩ :: lines,
               (p.price : ℚ) * (e.2 : ℚ) + sub)

/-- views.prepare_cart_data. -/
def prepare_cart_data (products : List Product) (cart : Cart) : Except PyError CartTotals :=
  match prepareLoop products cart with
  | .error e => .error e
  | .ok (lines, subtotal) =>
    let discount_total := subtotal - (lines.map (·.total)).sum
    let vat_rate : ℚ := 9
    let vat_amount := (subtotal - discount_total) * vat_rate / 100
    let total := (subtotal - discount_total) + vat_amount
    .ok ⟨lines, subtotal, discount_total, vat_amount, total⟩

/-- Invoice row (`models.Invoice`): `number` is nullable until settlement. -/
structure Invoice where
  id : Nat
  number : Option Int
  total : ℚ
  discount : ℚ
  vat : ℚ
  address : String
  description : String
deriving DecidableEq, Repr

/-- InvoiceItem row (`models.InvoiceItem`). -/
structure InvoiceItem where
  invoiceId : Nat
  productId : Nat
  count : Int
  price : ℚ
  discount : ℚ
  total : ℚ
  name : String
deriving DecidableEq, Repr

/-- Payment lifecycle states (`models.Payment.STATUS_*`). -/
inductive PayStatus
  | pending
  | done
  | error
deriving DecidableEq, Repr

/-- Payment row (`models.Payment`). -/
structure Payment where
  id : Nat
  invoiceId : Nat
  total : ℚ
  ref : Option Int
  status : PayStatus
  authority : String
  errorCode : Option String
  errorMessage : Option String
deriving DecidableEq, Repr

/-- The durable tables the checkout core touches. -/
structure DB where
  products : List Product
  invoices : List Invoice
  items : List InvoiceItem
  payments : List Payment
deriving DecidableEq, Repr

/-- Request-visible state: database plus the session cart. -/
structure SState where
  db : DB
  cart : Cart
deriving DecidableEq, Repr

/-- Django `product.save()`: replace the row with the instance's primary key. -/
def saveProduct (db : DB) (p : Product) : DB :=
  { db with products := db.products.map (fun q => if q.id == p.id then p else q) }

/-- Django `invoice.save()` on an existing row. -/
def saveInvoice (db : DB) (i : Invoice) : DB :=
  { db with invoices := db.invoices.map (fun q => if q.id == i.id then i else q) }

/-- Django `payment.save()` on an existing row. -/
def savePayment (db : DB) (p : Payment) : DB :=
  { db with payments := db.payments.map (fun q => if q.id == p.id then p else q) }

/-- Primary-key lookup in the invoices table (`payment.invoice`). -/
def findInvoice (db : DB) (iid : Nat) : Option Invoice :=
  db.invoices.find? (fun i => i.id == iid)

/-- Fresh primary key for an insert. -/
def nextId (ids : List Nat) : Nat :=
  ids.foldr max 0 + 1

/-- `InvoiceItem.objects.filter(invoice=invoice)` in table order. -/
def itemsOfInvoice (db : DB) (iid : Nat) : List InvoiceItem :=
  db.items.filter (fun it => it.invoiceId == iid)

/-- `Invoice.objects.aggregate(Max('number'))`: SQL MAX ignores NULLs. -/
def maxInvoiceNumber (db : DB) : Option Int :=
  (db.invoices.filterMap (·.number)).max?

/-- `Payment.objects.get(authority=..., status='pending')`, before the
    one-row check: all rows matching the filter, in table order. -/
def pendingWith (db : DB) (a : String) : List Payment :=
  db.payments.filter (fun p => p.authority == a && p.status == PayStatus.pending)

/-- Checkout form data; `InvoiceForm` exposes exactly `address` and `description`. -/
structure CheckoutForm where
  address : String
  description : String
deriving DecidableEq, Repr

/-- `InvoiceForm.is_valid()`: address is a required CharField(max_length=255),
    description is optional (`blank=True` on the model field). -/
def invoiceFormValid (f : CheckoutForm) : Bool :=
  !(f.address == "") && f.address.length.ble 255

/-- Authorize-call outcome: transport failure, or a parsed JSON body where
    `dataCode` is `response_data.get('data', \x7b\x7d).get('code')`,
    `dataAuthority` is `response_data['data']['authority']`, and
    `errCode`/`errMsg` are `response_data.get('errors', \x7b\x7d).get(...)`. -/
inductive GatewayAuthorize
  | netFail (excMsg : String)
  | resp (dataCode : Option Int) (dataAuthority : String)
      (errCode : Option Int) (errMsg : Option String)
deriving DecidableEq, Repr

/-- Result rendered by CheckoutCartView.post. -/
inductive CheckoutOutcome
  | invalidForm
  | redirect (authority : String)
  | checkoutError (msg : String)
  | raised (e : PyError)
deriving DecidableEq, Repr

/-- Item-building loop of CheckoutCartView.post (lines collected for
    `bulk_create`): `int(item_id)` raises ValueError on a non-digit key and
    `items.get(id=...)` raises DoesNotExist on a missing product; neither
    exception is caught there. -/
def buildInvoiceItems (products : List Product) (invId : Nat) :
    List (String × Int) → Except PyError (List InvoiceItem)
  | [] => .ok []
  | e :: rest =>
    match pyInt? e.1 with
    | none => .error .valueError
    | some pid =>
      match findProduct products pid with
      | none => .error .doesNotExist
      | some p =>
        match buildInvoiceItems products invId rest with
        | .error err => .error err
        | .ok items =>
          .ok (⟨invId, pid, e.2, (p.price : ℚ), p.discount,
                (p.price : ℚ) * (e.2 : ℚ) * (1 - p.discount / 100), p.name⟩ :: items)

/-- CheckoutCartView.post: validate the form, persist the invoice, build and
    bulk-create the items, create the payment, call the gateway authorize
    endpoint and either redirect to the gateway or record the failure. -/
def checkoutPost (s : SState) (form : CheckoutForm) (gw : GatewayAuthorize) :
    SState × CheckoutOutcome :=
  if invoiceFormValid form then
    let cart := s.cart
    let invId := nextId (s.db.invoices.map (·.id))
    let inv : Invoice :=
      ⟨invId, none, get_cart_total_price s.db.products cart, 0, 9,
       form.address, form.description⟩
    let db1 : DB := { s.db with invoices := s.db.invoices ++ [inv] }
    match buildInvoiceItems s.db.products invId cart with
    | .error e => ({ s with db := db1 }, .raised e)
    | .ok newItems =>
      let db2 : DB := { db1 with items := db1.items ++ newItems }
      let payBase := inv.total * (1 - inv.discount / 100)
      let payTotal := payBase + (inv.vat / 100) * payBase
      let payId := nextId (db2.payments.map (·.id))
      match gw with
      | .netFail excMsg =>
        let pay : Payment :=
          ⟨payId, invId, payTotal, none, .error, "", none,
           some ("error in connection to zarinpal: " ++ excMsg)⟩
        ({ s with db := { db2 with payments := db2.payments ++ [pay] } },
         .checkoutError "Couldn't connect to zarinpal. please try again later!")
      | .resp dataCode dataAuthority errCode errMsg =>
        if dataCode = some 100 then
          let pay : Payment :=
            ⟨payId, invId, payTotal, none, .pending, dataAuthority, none, none⟩
          ({ s with db := { db2 with payments := db2.payments ++ [pay] } },
           .redirect dataAuthority)
        else
          let msg := errMsg.getD "unknown error in payment"
          let pay : Payment :=
            ⟨payId, invId, payTotal, none, .error, "",
             some ((errCode.map toString).getD "Unknown"), some msg⟩
          ({ s with db := { db2 with payments := db2.payments ++ [pay] } },
           .checkoutError msg)
  else (s, .invalidForm)

/-- Parsed `data` member of a gateway verify response body:
    `code` is `data.get('code')` and `ref_id` is `data['ref_id']`. -/
structure VerifyData where
  code : Option Int
  ref_id : Int
deriving DecidableEq, Repr

/-- Verify-call outcome: transport failure, or a body whose `data` member is
    absent (`verify_result.get('data')` is None) or present. -/
inductive GatewayVerify
  | netFail
  | resp (data : Option VerifyData)
deriving DecidableEq, Repr

/-- Result rendered by VerifyView.get. -/
inductive VerifyOutcome
  | cancelled
  | noPayment
  | userCancelled
  | networkError
  | success (ref_id : Int)
  | notVerified
  | raised (e : PyError)
deriving DecidableEq, Repr

/-- Stock-decrement loop of the verify success path: for each invoice item,
    fetch its product and save it with `count -= item.count`; a dangling
    product reference raises mid-loop, keeping the decrements already saved. -/
def settleItems (db : DB) : List InvoiceItem → DB × Option PyError
  | [] => (db, none)
  | it :: rest =>
    match findProduct db.products it.productId with
    | none => (db, some .doesNotExist)
    | some p => settleItems (saveProduct db { p with count := p.count - it.count }) rest

/-- VerifyView.get: the settlement reconciler.  `status` and `authority` are
    the `Status` and `Authority` query parameters (absent → none); `gw` is the
    gateway verify exchange. -/
def verifyView (s : SState) (status : Option String) (authority : Option String)
    (gw : GatewayVerify) : SState × VerifyOutcome :=
  match authority with
  | none => (s, .cancelled)
  | some a =>
    if a = "" then (s, .cancelled)
    else
      match pendingWith s.db a with
      | [] => (s, .noPayment)
      | [p] =>
        if status ≠ some "OK" then
          ({ s with db := savePayment s.db { p with status := .error } }, .userCancelled)
        else
          match gw with
          | .netFail => (s, .networkError)
          | .resp none => (s, .raised .attributeError)
          | .resp (some d) =>
            if d.code = some 100 then
              let p' : Payment := { p with ref := some d.ref_id, status := .done }
              let db1 := savePayment s.db p'
              match findInvoice db1 p.invoiceId with
              | none => ({ s with db := db1 }, .raised .doesNotExist)
              | some inv =>
                let inv' :=
                  if inv.number = none then
                    { inv with number := some ((maxInvoiceNumber db1).getD 0 + 1) }
                  else inv
                match settleItems db1 (itemsOfInvoice db1 inv.id) with
                | (db2, some e) => ({ s with db := db2 }, .raised e)
                | (db2, none) =>
                  ({ db := saveInvoice db2 inv', cart := [] }, .success d.ref_id)
            else
              ({ s with db := savePayment s.db { p with status := .error } }, .notVerified)
      | _ :: _ :: _ => (s, .raised .multipleObjects)

theorem find?_replace_self (k : String) (v : Int) :
    ∀ c : Cart, (c.find? (fun e => e.1 == k)).isSome →
      (c.map (fun e => if e.1 == k then (k, v) else e)).find? (fun e => e.1 == k)
        = some (k, v) := by
  intro c
  induction c with
  | nil => simp
  | cons e rest ih =>
    intro h
    rw [List.map_cons]
    cases hbe : (e.1 == k) with
    | true =>
      rw [if_pos rfl, List.find?_cons_of_pos _ (by simp)]
    | false =>
      rw [List.find?_cons_of_neg _ (by simp [hbe])] at h
      rw [if_neg (by simp), List.find?_cons_of_neg _ (by simp [hbe])]
      exact ih h

theorem find?_replace_ne (k k' : String) (v : Int) (hne : k' ≠ k) :
    ∀ c : Cart,
      (c.map (fun e => if e.1 == k then (k, v) else e)).find? (fun e => e.1 == k')
        = c.find? (fun e => e.1 == k') := by
  intro c
  have hkk : (k == k') = false := beq_eq_false_iff_ne.mpr (Ne.symm hne)
  induction c with
  | nil => simp
  | cons e rest ih =>
    rw [List.map_cons]
    cases hbe : (e.1 == k) with
    | true =>
      have he1 : (e.1 == k') = false := by
        have : e.1 = k := by simpa using hbe
        rw [this]; exact hkk
      rw [if_pos rfl, List.find?_cons_of_neg _ (by simp [hkk]),
        List.find?_cons_of_neg _ (by simp [he1])]
      exact ih
    | false =>
      rw [if_neg (by simp)]
      cases he1 : (e.1 == k') with
      | true =>
        rw [List.find?_cons_of_pos _ (by simp [he1]),
          List.find?_cons_of_pos _ (by simp [he1])]
      | false =>
        rw [List.find?_cons_of_neg _ (by simp [he1]),
          List.find?_cons_of_neg _ (by simp [he1])]
        exact ih

theorem dictGet_dictSet_self (c : Cart) (k : String) (v : Int) :
    dictGet (dictSet c k v) k = some v := by
  unfold dictSet dictGet
  by_cases h : (c.find? (fun e => e.1 == k)).isSome
  · rw [if_pos h, find?_replace_self k v c h]
    rfl
  · rw [if_neg h, List.find?_append]
    have hnone : c.find? (fun e => e.1 == k) = none :=
      Option.not_isSome_iff_eq_none.mp h
    rw [hnone]
    simp

theorem dictGet_dictSet_ne (c : Cart) (k k' : String) (v : Int) (hne : k' ≠ k) :
    dictGet (dictSet c k v) k' = dictGet c k' := by
  unfold dictSet dictGet
  by_cases h : (c.find? (fun e => e.1 == k)).isSome
  · rw [if_pos h, find?_replace_ne k k' v hne c]
  · rw [if_neg h, List.find?_append]
    have hkk : (k == k') = false := beq_eq_false_iff_ne.mpr (Ne.symm hne)
    have : (List.find? (fun e => e.1 == k') [(k, v)]) = none := by
      simp [List.find?, hkk]
    rw [this]
    cases c.find? (fun e => e.1 == k') <;> simp

theorem foldl_add_eq (f : (String × Int) → ℚ) :
    ∀ (l : List (String × Int)) (a : ℚ),
      l.foldl (fun acc e => acc + f e) a = a + (l.map f).sum := by
  intro l
  induction l with
  | nil => intro a; simp
  | cons e rest ih =>
    intro a
    rw [List.foldl_cons, ih, List.map_cons, List.sum_cons, add_assoc]

theorem round2_zero : round2 0 = 0 := by
  norm_num [round2, roundHalfEven]

theorem get_cart_total_price_eq (products : List Product) (cart : Cart) :
    get_cart_total_price products cart =
      if cart = [] then 0
      else if cart.filterMap (fun e => pyInt? e.1) = [] then 0
      else round2 ((cart.map (lineContribution products)).sum) := by
  unfold get_cart_total_price
  rw [foldl_add_eq, zero_add]

theorem prepareLoop_ok_facts (products : List Product) :
    ∀ (l : List (String × Int)) (lines : List CartLine) (sub : ℚ),
      prepareLoop products l = .ok (lines, sub) →
      (∀ ln ∈ lines, ln.total = ln.price * (ln.count : ℚ) * (1 - ln.discount / 100)) ∧
      sub = (lines.map (fun ln => ln.price * (ln.count : ℚ))).sum := by
  intro l
  induction l with
  | nil =>
    intro lines sub h
    simp only [prepareLoop, Except.ok.injEq, Prod.mk.injEq] at h
    obtain ⟨h1, h2⟩ := h
    subst h1; subst h2
    simp
  | cons e rest ih =>
    intro lines sub h
    cases hpy : pyInt? e.1 with
    | none => simp [prepareLoop, hpy] at h
    | some pid =>
      cases hfp : findProduct products pid with
      | none =>
        simp only [prepareLoop, hpy, hfp] at h
        exact ih lines sub h
      | some p =>
        cases hrec : prepareLoop products rest with
        | error err => simp [prepareLoop, hpy, hfp, hrec] at h
        | ok pr =>
          obtain ⟨lines', sub'⟩ := pr
          simp only [prepareLoop, hpy, hfp, hrec, Except.ok.injEq, Prod.mk.injEq] at h
          obtain ⟨hl, hs⟩ := h
          obtain ⟨hfacts, hsum⟩ := ih lines' sub' hrec
          subst hl; subst hs
          constructor
          · intro ln hln
            rcases List.mem_cons.mp hln with hh | hh
            · subst hh; rfl
            · exact hfacts ln hh
          · rw [List.map_cons, List.sum_cons, hsum]

theorem prepareLoop_drop (products : List Product) (k : String) (c : Int) (pid : Nat)
    (hk : pyInt? k = some pid) (hmiss : findProduct products pid = none) :
    ∀ (pre post : List (String × Int)),
      prepareLoop products (pre ++ (k, c) :: post) = prepareLoop products (pre ++ post) := by
  intro pre
  induction pre with
  | nil =>
    intro post
    simp only [List.nil_append]
    rw [show prepareLoop products ((k, c) :: post)
        = prepareLoop products post from by simp only [prepareLoop, hk, hmiss]]
  | cons e pre' ih =>
    intro post
    simp only [List.cons_append, prepareLoop, List.append_eq]
    rw [ih post]

theorem lineContribution_miss (products : List Product) (k : String) (c : Int) (pid : Nat)
    (hk : pyInt? k = some pid) (hmiss : findProduct products pid = none) :
    lineContribution products (k, c) = 0 := by
  simp [lineContribution, hk, hmiss]

/-- C9 (as amended): the pricing formulas of prepare_cart_data hold as specified;
    the grand total is non-negative whenever every line has non-negative price
    and count and a discount within [0, 100]; and Scenario A evaluates exactly
    as the spec states.  Without the bracket condition on discounts the
    non-negativity claim fails (see the counterexample). -/
theorem prepare_cart_data_spec :
    (∀ (products : List Product) (cart : Cart) (res : CartTotals),
      prepare_cart_data products cart = .ok res →
      res.discount_total = res.subtotal - (res.items.map (·.total)).sum ∧
      res.vat_amount = (res.subtotal - res.discount_total) * 9 / 100 ∧
      res.total = (res.subtotal - res.discount_total) + res.vat_amount ∧
      res.subtotal = (res.items.map (fun ln => ln.price * (ln.count : ℚ))).sum ∧
      (∀ ln ∈ res.items, ln.total = ln.price * (ln.count : ℚ) * (1 - ln.discount / 100)) ∧
      ((∀ ln ∈ res.items,
          0 ≤ ln.price ∧ 0 ≤ ln.count ∧ 0 ≤ ln.discount ∧ ln.discount ≤ 100) →
        0 ≤ res.total)) ∧
    prepare_cart_data [⟨5, "p5", 100, 10, true, 10, false⟩] [("5", 2)] =
      .ok ⟨[⟨5, 2, 100, 10, 180⟩], 200, 20, 162/10, 1962/10⟩ := by
  constructor
  · intro products cart res h
    cases hrec : prepareLoop products cart with
    | error err => simp [prepare_cart_data, hrec] at h
    | ok pr =>
      obtain ⟨lines, subtotal⟩ := pr
      simp only [prepare_cart_data, hrec, Except.ok.injEq] at h
      obtain ⟨hfacts, hsum⟩ := prepareLoop_ok_facts products cart lines subtotal hrec
      subst h
      refine ⟨rfl, rfl, rfl, hsum, hfacts, ?_⟩
      intro hcond
      have hS : 0 ≤ (lines.map (·.total)).sum := by
        apply List.sum_nonneg
        intro x hx
        obtain ⟨ln, hln, hxe⟩ := List.mem_map.mp hx
        obtain ⟨hp, hc, hd0, hd100⟩ := hcond ln hln
        subst hxe
        rw [hfacts ln hln]
        have h1 : (0 : ℚ) ≤ (ln.count : ℚ) := by exact_mod_cast hc
        have h2 : (0 : ℚ) ≤ 1 - ln.discount / 100 := by linarith
        positivity
      simp only
      set S := (lines.map (·.total)).sum
      have : subtotal - (subtotal - S) = S := by ring
      rw [this]
      linarith
  · have hpy : pyInt? "5" = some 5 := by decide
    simp only [prepare_cart_data, prepareLoop, hpy, findProduct, List.find?]
    norm_num

/-- C9 counterexample: with a stored discount of 200 percent (nothing clamps
    discounts to [0, 100]) the grand total computed by prepare_cart_data is
    negative, refuting the unconditional claim that it is always ≥ 0. -/
theorem prepare_cart_data_nonneg_counterexample :
    prepare_cart_data [⟨1, "neg", 100, 200, true, 1, false⟩] [("1", 1)] =
      .ok ⟨[⟨1, 1, 100, 200, -100⟩], 100, 200, -9, -109⟩ ∧
    ((-109 : ℚ) < 0) := by
  constructor
  · have hpy : pyInt? "1" = some 1 := by decide
    simp only [prepare_cart_data, prepareLoop, hpy, findProduct, List.find?]
    norm_num
  · norm_num

theorem prepare_cart_data_spec_witness :
    0 ≤ (⟨[⟨5, 2, 100, 10, 180⟩], 200, 20, 162/10, 1962/10⟩ : CartTotals).total :=
  (prepare_cart_data_spec.1 _ _ _ prepare_cart_data_spec.2).2.2.2.2.2 (by decide)

theorem sum_contributions_zero (products : List Product) (l : Cart)
    (h : ∀ e ∈ l, pyInt? e.1 = none) :
    (l.map (lineContribution products)).sum = 0 := by
  apply List.sum_eq_zero
  intro x hx
  obtain ⟨e, he, hxe⟩ := List.mem_map.mp hx
  subst hxe
  simp [lineContribution, h e he]

/-- C6 (as amended): the read-time pricing computations — the cart total and
    the checkout-display snapshot built by prepare_cart_data — drop a cart
    entry whose product id resolves to no existing Product and compute exactly
    as they would without that entry.  The checkout-POST item-building loop
    does not share this behaviour (see the counterexample). -/
theorem cart_reads_drop_missing_product (products : List Product) (pre post : Cart)
    (k : String) (c : Int) (pid : Nat)
    (hk : pyInt? k = some pid) (hmiss : findProduct products pid = none) :
    get_cart_total_price products (pre ++ (k, c) :: post)
        = get_cart_total_price products (pre ++ post) ∧
    prepare_cart_data products (pre ++ (k, c) :: post)
        = prepare_cart_data products (pre ++ post) := by
  constructor
  · rw [get_cart_total_price_eq, get_cart_total_price_eq]
    have hzero : lineContribution products (k, c) = 0 :=
      lineContribution_miss products k c pid hk hmiss
    have hsum : ((pre ++ (k, c) :: post).map (lineContribution products)).sum
        = ((pre ++ post).map (lineContribution products)).sum := by
      simp [List.map_append, List.sum_append, hzero]
    have hne : ¬(pre ++ (k, c) :: post = []) := by simp
    rw [if_neg hne]
    by_cases h1 : pre ++ post = []
    · obtain ⟨hpre, hpost⟩ := List.append_eq_nil.mp h1
      subst hpre; subst hpost
      simp only [List.nil_append]
      rw [if_pos trivial]
      rw [if_neg (by simp [List.filterMap_cons, hk])]
      simpa [hzero] using round2_zero
    · rw [if_neg h1]
      by_cases h2 : (pre ++ post).filterMap (fun e => pyInt? e.1) = []
      · rw [if_pos h2]
        rw [if_neg (by
          simp only [List.filterMap_append, List.filterMap_cons, hk] at h2 ⊢
          intro hcontra
          exact absurd hcontra (by simp)), hsum]
        have hallnone : ∀ e ∈ pre ++ post, pyInt? e.1 = none := by
          intro e he
          rw [List.filterMap_eq_nil_iff] at h2
          exact h2 e he
        rw [sum_contributions_zero products _ hallnone, round2_zero]
      · rw [if_neg h2]
        rw [if_neg (by
          simp only [List.filterMap_append, List.filterMap_cons, hk] at h2 ⊢
          intro hcontra
          exact absurd hcontra (by simp)), hsum]
  · unfold prepare_cart_data
    rw [prepareLoop_drop products k c pid hk hmiss pre post]

/-- C6 counterexample: at checkout POST a cart entry with no matching product
    makes the invoice-item loop raise DoesNotExist instead of dropping the
    entry, so the whole submission errors. -/
theorem checkout_snapshot_counterexample :
    buildInvoiceItems [⟨2, "q", 50, 0, true, 5, false⟩] 1 [("2", 1), ("555", 3)]
        = .error .doesNotExist ∧
    (checkoutPost ⟨⟨[⟨2, "q", 50, 0, true, 5, false⟩], [], [], []⟩, [("2", 1), ("555", 3)]⟩
        ⟨"somewhere", ""⟩ (.resp (some 100) "A00" none none)).2 = .raised .doesNotExist := by
  constructor
  · rfl
  · decide

theorem cart_reads_drop_missing_product_witness :
    pyInt? "555" = some 555 ∧
    findProduct [⟨2, "q", 50, 0, true, 5, false⟩] 555 = none ∧
    (get_cart_total_price [⟨2, "q", 50, 0, true, 5, false⟩] ([("2", 1)] ++ ("555", 3) :: [])
        = get_cart_total_price [⟨2, "q", 50, 0, true, 5, false⟩] ([("2", 1)] ++ []) ∧
      prepare_cart_data [⟨2, "q", 50, 0, true, 5, false⟩] ([("2", 1)] ++ ("555", 3) :: [])
        = prepare_cart_data [⟨2, "q", 50, 0, true, 5, false⟩] ([("2", 1)] ++ [])) :=
  ⟨by decide, by decide,
    cart_reads_drop_missing_product [⟨2, "q", 50, 0, true, 5, false⟩] [("2", 1)] []
      "555" 3 555 (by decide) (by decide)⟩

theorem find?_keyed_replace_ne {α : Type} (key : α → Nat) (x : α) (k : Nat)
    (hx : key x ≠ k) :
    ∀ l : List α,
      (l.map (fun q => if key q == key x then x else q)).find? (fun q => key q == k)
        = l.find? (fun q => key q == k) := by
  intro l
  induction l with
  | nil => simp
  | cons e rest ih =>
    rw [List.map_cons]
    cases hbe : (key e == key x) with
    | true =>
      have hek : key e = key x := by simpa using hbe
      have hxk : (key x == k) = false := beq_eq_false_iff_ne.mpr hx
      rw [if_pos rfl, List.find?_cons_of_neg _ (by simp [hxk]),
        List.find?_cons_of_neg _ (by simp [hek, hxk])]
      exact ih
    | false =>
      rw [if_neg (by simp)]
      cases he1 : (key e == k) with
      | true =>
        rw [List.find?_cons_of_pos _ (by simp [he1]),
          List.find?_cons_of_pos _ (by simp [he1])]
      | false =>
        rw [List.find?_cons_of_neg _ (by simp [he1]),
          List.find?_cons_of_neg _ (by simp [he1])]
        exact ih

theorem find?_keyed_replace_self {α : Type} (key : α → Nat) (x : α) :
    ∀ l : List α, (l.find? (fun q => key q == key x)).isSome →
      (l.map (fun q => if key q == key x then x else q)).find? (fun q => key q == key x)
        = some x := by
  intro l
  induction l with
  | nil => simp
  | cons e rest ih =>
    intro h
    rw [List.map_cons]
    cases hbe : (key e == key x) with
    | true =>
      rw [if_pos rfl, List.find?_cons_of_pos _ (by simp)]
    | false =>
      rw [List.find?_cons_of_neg _ (by simp [hbe])] at h
      rw [if_neg (by simp), List.find?_cons_of_neg _ (by simp [hbe])]
      exact ih h

theorem find?_keyed_replace_none {α : Type} (key : α → Nat) (x : α) (k : Nat)
    (l : List α) (h : l.find? (fun q => key q == k) = none) :
    (l.map (fun q => if key q == key x then x else q)).find? (fun q => key q == k)
      = none := by
  rw [List.find?_eq_none] at h ⊢
  intro y hy
  obtain ⟨q, hq, hyq⟩ := List.mem_map.mp hy
  by_cases hqc : (key q == key x) = true
  · rw [if_pos hqc] at hyq
    subst hyq
    have hkq : key q = key x := by simpa using hqc
    intro hyk
    have hcontra : (key q == k) = true := by
      rw [hkq]; exact hyk
    exact h q hq hcontra
  · rw [if_neg hqc] at hyq
    subst hyq
    exact h q hq

theorem keyed_replace_id {α : Type} (key : α → Nat) (x : α) :
    ∀ l : List α, l.find? (fun q => key q == key x) = some x → (l.map key).Nodup →
      l.map (fun q => if key q == key x then x else q) = l := by
  intro l
  induction l with
  | nil => simp
  | cons e rest ih =>
    intro hfind hnodup
    rw [List.map_cons] at hnodup
    rw [List.map_cons]
    cases hbe : (key e == key x) with
    | true =>
      rw [List.find?_cons_of_pos _ (by exact hbe)] at hfind
      have hex : e = x := Option.some.inj hfind
      have hkex : key e = key x := by simpa using hbe
      have hkey : key e ∉ rest.map key := (List.nodup_cons.mp hnodup).1
      have hrest : rest.map (fun q => if key q == key x then x else q) = rest := by
        have hfun : ∀ q ∈ rest, (if key q == key x then x else q) = id q := by
          intro q hq
          have hqx : ¬(key q == key x) = true := by
            intro hcontra
            apply hkey
            rw [hkex, ← (show key q = key x by simpa using hcontra)]
            exact List.mem_map_of_mem key hq
          rw [if_neg hqx]
          rfl
        rw [List.map_congr_left hfun, List.map_id]
      rw [if_pos rfl, hrest, ← hex]
    | false =>
      rw [List.find?_cons_of_neg _ (by simp [hbe])] at hfind
      rw [if_neg (by simp), ih hfind (List.nodup_cons.mp hnodup).2]

theorem find?_decompose {α : Type} (p : α → Bool) :
    ∀ (l : List α) (x : α), l.find? p = some x →
      ∃ l₁ l₂, l = l₁ ++ x :: l₂ ∧ ∀ y ∈ l₁, p y = false := by
  intro l
  induction l with
  | nil => intro x h; simp at h
  | cons e rest ih =>
    intro x h
    cases hbe : p e with
    | true =>
      rw [List.find?_cons_of_pos _ hbe] at h
      have hex : e = x := Option.some.inj h
      subst hex
      exact ⟨[], rest, rfl, by simp⟩
    | false =>
      rw [List.find?_cons_of_neg _ (by simp [hbe])] at h
      obtain ⟨l₁, l₂, hl, hfalse⟩ := ih x h
      refine ⟨e :: l₁, l₂, by rw [hl, List.cons_append], ?_⟩
      intro y hy
      rcases List.mem_cons.mp hy with hh | hh
      · subst hh; exact hbe
      · exact hfalse y hh

theorem settleItems_fixed_tables (db : DB) :
    ∀ l : List InvoiceItem,
      (settleItems db l).1.invoices = db.invoices ∧
      (settleItems db l).1.items = db.items ∧
      (settleItems db l).1.payments = db.payments := by
  intro l
  induction l generalizing db with
  | nil => exact ⟨rfl, rfl, rfl⟩
  | cons it rest ih =>
    cases hfp : findProduct db.products it.productId with
    | none => simp [settleItems, hfp]
    | some p =>
      simp only [settleItems, hfp]
      exact ih _

theorem findProduct_saveProduct_isSome (db : DB) (p : Product) (x : Nat) :
    (findProduct (saveProduct db p).products x).isSome
      = (findProduct db.products x).isSome := by
  unfold findProduct saveProduct
  by_cases hx : p.id = x
  · subst hx
    cases hfind : db.products.find? (fun q => q.id == p.id) with
    | none =>
      rw [find?_keyed_replace_none Product.id p p.id db.products hfind]
    | some q =>
      rw [find?_keyed_replace_self Product.id p db.products (by rw [hfind]; rfl)]
      rfl
  · rw [find?_keyed_replace_ne Product.id p x hx db.products]

theorem settleItems_ok_of_found (db : DB) :
    ∀ l : List InvoiceItem,
      (∀ it ∈ l, (findProduct db.products it.productId).isSome) →
      (settleItems db l).2 = none := by
  intro l
  induction l generalizing db with
  | nil => intro _; rfl
  | cons it rest ih =>
    intro hfound
    cases hfp : findProduct db.products it.productId with
    | none =>
      have := hfound it (List.mem_cons_self it rest)
      rw [hfp] at this
      simp at this
    | some p =>
      simp only [settleItems, hfp]
      apply ih
      intro j hj
      rw [findProduct_saveProduct_isSome]
      exact hfound j (List.mem_cons_of_mem it hj)

theorem settleItems_preserves_other (x : Nat) :
    ∀ (l : List InvoiceItem) (db : DB), x ∉ l.map (·.productId) →
      findProduct (settleItems db l).1.products x = findProduct db.products x := by
  intro l
  induction l with
  | nil => intro db _; rfl
  | cons it rest ih =>
    intro db hx
    have hxit : it.productId ≠ x := by
      intro hcontra
      exact hx (by simp [hcontra])
    have hxrest : x ∉ rest.map (·.productId) := by
      intro hcontra
      exact hx (by simp [hcontra])
    cases hfp : findProduct db.products it.productId with
    | none => simp only [settleItems, hfp]
    | some p =>
      simp only [settleItems, hfp]
      rw [ih _ hxrest]
      unfold findProduct saveProduct
      have hpid : p.id = it.productId := by
        have := List.find?_some hfp
        simpa [findProduct] using (by simpa using this)
      rw [find?_keyed_replace_ne Product.id _ x (by rw [hpid]; exact hxit)]

theorem settleItems_decrements :
    ∀ (l : List InvoiceItem) (db : DB) (it : InvoiceItem) (q : Product),
      it ∈ l → (l.map (·.productId)).Nodup →
      (∀ j ∈ l, (findProduct db.products j.productId).isSome) →
      findProduct db.products it.productId = some q →
      findProduct (settleItems db l).1.products it.productId
        = some { q with count := q.count - it.count } := by
  intro l
  induction l with
  | nil => intro db it q h; simp at h
  | cons j rest ih =>
    intro db it q hmem hnodup hfound hq
    have hjp : (findProduct db.products j.productId).isSome :=
      hfound j (List.mem_cons_self j rest)
    cases hfp : findProduct db.products j.productId with
    | none => rw [hfp] at hjp; simp at hjp
    | some pj =>
      have hpjid : pj.id = j.productId := by
        have := List.find?_some hfp
        simpa using this
      simp only [settleItems, hfp]
      rcases List.mem_cons.mp hmem with hh | hh
      · subst hh
        have hqpj : pj = q := by rw [hfp] at hq; simpa using hq
        subst hqpj
        have hnotin : it.productId ∉ rest.map (·.productId) :=
          (List.nodup_cons.mp (by simpa using hnodup)).1
        rw [settleItems_preserves_other it.productId rest _ hnotin]
        unfold findProduct saveProduct
        have hxid : ({ pj with count := pj.count - it.count } : Product).id = it.productId := by
          rw [show ({ pj with count := pj.count - it.count } : Product).id = pj.id from rfl, hpjid]
        rw [← hxid]
        apply find?_keyed_replace_self Product.id { pj with count := pj.count - it.count }
        rw [hxid]
        unfold findProduct at hq
        rw [hq]
        rfl
      · have hne : j.productId ≠ it.productId := by
          intro hcontra
          have hmm : j.productId ∈ rest.map (·.productId) :=
            hcontra ▸ List.mem_map_of_mem (·.productId) hh
          exact (List.nodup_cons.mp (by simpa using hnodup)).1 hmm
        have hsid : ({ pj with count := pj.count - j.count } : Product).id = pj.id := rfl
        apply ih
        · exact hh
        · exact (List.nodup_cons.mp (by simpa using hnodup)).2
        · intro j' hj'
          rw [findProduct_saveProduct_isSome]
          exact hfound j' (List.mem_cons_of_mem j hj')
        · unfold findProduct saveProduct
          rw [find?_keyed_replace_ne Product.id _ it.productId
            (by rw [hsid, hpjid]; exact hne) db.products]
          exact hq

theorem findInvoice_savePayment (db : DB) (p : Payment) (iid : Nat) :
    findInvoice (savePayment db p) iid = findInvoice db iid := rfl

theorem itemsOfInvoice_savePayment (db : DB) (p : Payment) (iid : Nat) :
    itemsOfInvoice (savePayment db p) iid = itemsOfInvoice db iid := rfl

theorem maxInvoiceNumber_savePayment (db : DB) (p : Payment) :
    maxInvoiceNumber (savePayment db p) = maxInvoiceNumber db := rfl

theorem verifyView_no_pending (s : SState) (status : Option String) (a : String)
    (gw : GatewayVerify) (ha : a ≠ "") (hpend : pendingWith s.db a = []) :
    verifyView s status (some a) gw = (s, .noPayment) := by
  simp [verifyView, hpend, ha]

theorem verifyView_success_eq (s : SState) (a : String) (p : Payment) (r : Int) (inv : Invoice)
    (ha : a ≠ "") (hpend : pendingWith s.db a = [p])
    (hinv : findInvoice s.db p.invoiceId = some inv)
    (hsettle : (settleItems (savePayment s.db { p with ref := some r, status := .done })
        (itemsOfInvoice s.db inv.id)).2 = none) :
    verifyView s (some "OK") (some a) (.resp (some ⟨some 100, r⟩)) =
      (⟨saveInvoice
          (settleItems (savePayment s.db { p with ref := some r, status := .done })
            (itemsOfInvoice s.db inv.id)).1
          (if inv.number = none
            then { inv with number := some ((maxInvoiceNumber s.db).getD 0 + 1) }
            else inv), []⟩,
       .success r) := by
  rcases hset : settleItems (savePayment s.db { p with ref := some r, status := .done })
      (itemsOfInvoice s.db inv.id) with ⟨db2, e2⟩
  rw [hset] at hsettle
  simp only at hsettle
  subst hsettle
  simp only [verifyView, hpend, findInvoice_savePayment, hinv, itemsOfInvoice_savePayment,
    maxInvoiceNumber_savePayment, hset]
  simp [ha]

theorem payments_saveInvoice (db : DB) (i : Invoice) :
    (saveInvoice db i).payments = db.payments := rfl

theorem products_saveInvoice (db : DB) (i : Invoice) :
    (saveInvoice db i).products = db.products := rfl

theorem pendingWith_single_mem (db : DB) (a : String) (p : Payment)
    (h : pendingWith db a = [p]) :
    p ∈ db.payments ∧ p.authority = a ∧ p.status = .pending := by
  have hp : p ∈ pendingWith db a := by
    rw [h]
    exact List.mem_cons_self p []
  refine ⟨List.mem_of_mem_filter hp, ?_⟩
  have hpred := List.of_mem_filter hp
  simp only [Bool.and_eq_true, beq_iff_eq] at hpred
  exact hpred

theorem pendingWith_single_unique (db : DB) (a : String) (p : Payment)
    (h : pendingWith db a = [p]) :
    ∀ q ∈ db.payments, q.authority = a → q.status = .pending → q = p := by
  intro q hq hqa hqs
  have hmem : q ∈ pendingWith db a :=
    List.mem_filter.mpr ⟨hq, by simp [hqa, hqs]⟩
  rw [h] at hmem
  simpa using hmem

theorem verifyView_cancel_eq (s : SState) (status : Option String) (a : String)
    (p : Payment) (gw : GatewayVerify) (ha : a ≠ "")
    (hpend : pendingWith s.db a = [p]) (hstatus : status ≠ some "OK") :
    verifyView s status (some a) gw
      = ({ s with db := savePayment s.db { p with status := .error } }, .userCancelled) := by
  simp only [verifyView, hpend]
  simp [ha, hstatus]

/-- C7: a verify callback with a non-OK Status on a pending payment marks that
    payment error and fails, independently of the gateway (no verify request
    matters), with products, invoices, items and the cart all unchanged. -/
theorem verify_non_ok_marks_error (s : SState) (status : Option String) (a : String)
    (p : Payment) (gw gw' : GatewayVerify) (ha : a ≠ "")
    (hpend : pendingWith s.db a = [p]) (hstatus : status ≠ some "OK") :
    verifyView s status (some a) gw
      = ({ s with db := savePayment s.db { p with status := .error } }, .userCancelled) ∧
    verifyView s status (some a) gw = verifyView s status (some a) gw' ∧
    (verifyView s status (some a) gw).1.db.products = s.db.products ∧
    (verifyView s status (some a) gw).1.db.invoices = s.db.invoices ∧
    (verifyView s status (some a) gw).1.db.items = s.db.items ∧
    (verifyView s status (some a) gw).1.cart = s.cart ∧
    { p with status := PayStatus.error } ∈ (verifyView s status (some a) gw).1.db.payments := by
  have heq := verifyView_cancel_eq s status a p gw ha hpend hstatus
  have heq' := verifyView_cancel_eq s status a p gw' ha hpend hstatus
  refine ⟨heq, heq.trans heq'.symm, by rw [heq]; try rfl, by rw [heq]; try rfl,
    by rw [heq]; try rfl, by rw [heq]; try rfl, ?_⟩
  rw [heq]
  have hp := (pendingWith_single_mem s.db a p hpend).1
  have himg : (fun q => if q.id == ({ p with status := PayStatus.error } : Payment).id
      then { p with status := PayStatus.error } else q) p
      = { p with status := PayStatus.error } := by simp
  have hmm := List.mem_map_of_mem
    (fun q => if q.id == ({ p with status := PayStatus.error } : Payment).id
      then { p with status := PayStatus.error } else q) hp
  rw [himg] at hmm
  exact hmm

theorem verify_non_ok_marks_error_witness :
    (("AUTH" : String) ≠ "" ∧
      pendingWith ⟨[], [⟨3, none, 7, 0, 9, "addr", ""⟩], [],
        [⟨4, 3, 7, none, .pending, "AUTH", none, none⟩]⟩ "AUTH"
        = [⟨4, 3, 7, none, .pending, "AUTH", none, none⟩] ∧
      (some "NOK" : Option String) ≠ some "OK") ∧
    verifyView ⟨⟨[], [⟨3, none, 7, 0, 9, "addr", ""⟩], [],
        [⟨4, 3, 7, none, .pending, "AUTH", none, none⟩]⟩, [("1", 2)]⟩
        (some "NOK") (some "AUTH") .netFail
      = (⟨⟨[], [⟨3, none, 7, 0, 9, "addr", ""⟩], [],
          savePayment ⟨[], [⟨3, none, 7, 0, 9, "addr", ""⟩], [],
            [⟨4, 3, 7, none, .pending, "AUTH", none, none⟩]⟩
            ⟨4, 3, 7, none, .error, "AUTH", none, none⟩ |>.payments⟩,
          [("1", 2)]⟩, .userCancelled) := by
  refine ⟨⟨by decide, by decide, by decide⟩, ?_⟩
  have h := (verify_non_ok_marks_error
    ⟨⟨[], [⟨3, none, 7, 0, 9, "addr", ""⟩], [],
      [⟨4, 3, 7, none, .pending, "AUTH", none, none⟩]⟩, [("1", 2)]⟩
    (some "NOK") "AUTH" ⟨4, 3, 7, none, .pending, "AUTH", none, none⟩
    .netFail .netFail (by decide) (by decide) (by decide)).1
  exact h

/-- C8: when the gateway verify response body has no data object (an
    errors-shaped body), the settlement code path raises AttributeError
    instead of marking the payment error: the state is untouched and the
    payment is left pending. -/
theorem verify_errors_body_crashes :
    verifyView ⟨⟨[⟨1, "a", 7, 0, true, 10, false⟩], [⟨3, none, 7, 0, 9, "addr", ""⟩],
        [⟨3, 1, 2, 7, 0, 14, "a"⟩], [⟨4, 3, 7, none, .pending, "AUTH", none, none⟩]⟩,
        [("1", 2)]⟩ (some "OK") (some "AUTH") (.resp none)
      = (⟨⟨[⟨1, "a", 7, 0, true, 10, false⟩], [⟨3, none, 7, 0, 9, "addr", ""⟩],
          [⟨3, 1, 2, 7, 0, 14, "a"⟩], [⟨4, 3, 7, none, .pending, "AUTH", none, none⟩]⟩,
          [("1", 2)]⟩, .raised .attributeError) ∧
    ((verifyView ⟨⟨[⟨1, "a", 7, 0, true, 10, false⟩], [⟨3, none, 7, 0, 9, "addr", ""⟩],
        [⟨3, 1, 2, 7, 0, 14, "a"⟩], [⟨4, 3, 7, none, .pending, "AUTH", none, none⟩]⟩,
        [("1", 2)]⟩ (some "OK") (some "AUTH") (.resp none)).1.db.payments.map (·.status))
      = [.pending] := by
  constructor
  · decide
  · decide

/-- C2: a verify callback with Status=OK on a pending payment whose gateway
    verify response carries code 100 sets ref, marks the payment done,
    decrements each invoice item's product stock by the item count, and
    empties the session cart. -/
theorem verify_success_settles (s : SState) (a : String) (p : Payment) (r : Int) (inv : Invoice)
    (ha : a ≠ "") (hpend : pendingWith s.db a = [p])
    (hinv : findInvoice s.db p.invoiceId = some inv)
    (hfound : ∀ it ∈ itemsOfInvoice s.db inv.id, (findProduct s.db.products it.productId).isSome)
    (hnodup : ((itemsOfInvoice s.db inv.id).map (·.productId)).Nodup) :
    (verifyView s (some "OK") (some a) (.resp (some ⟨some 100, r⟩))).2 = .success r ∧
    (verifyView s (some "OK") (some a) (.resp (some ⟨some 100, r⟩))).1.cart = [] ∧
    { p with ref := some r, status := PayStatus.done }
      ∈ (verifyView s (some "OK") (some a) (.resp (some ⟨some 100, r⟩))).1.db.payments ∧
    ∀ it ∈ itemsOfInvoice s.db inv.id, ∀ q : Product,
      findProduct s.db.products it.productId = some q →
      findProduct (verifyView s (some "OK") (some a) (.resp (some ⟨some 100, r⟩))).1.db.products
          it.productId = some { q with count := q.count - it.count } := by
  have hsettle : (settleItems (savePayment s.db { p with ref := some r, status := .done })
      (itemsOfInvoice s.db inv.id)).2 = none :=
    settleItems_ok_of_found _ _ (fun it hit => hfound it hit)
  have heq := verifyView_success_eq s a p r inv ha hpend hinv hsettle
  rw [heq]
  refine ⟨rfl, rfl, ?_, ?_⟩
  · rw [payments_saveInvoice,
      (settleItems_fixed_tables (savePayment s.db { p with ref := some r, status := .done })
        (itemsOfInvoice s.db inv.id)).2.2]
    have hp := (pendingWith_single_mem s.db a p hpend).1
    have himg : (fun q => if q.id == ({ p with ref := some r, status := PayStatus.done }
          : Payment).id then { p with ref := some r, status := PayStatus.done } else q) p
        = { p with ref := some r, status := PayStatus.done } := by simp
    have hmm := List.mem_map_of_mem
      (fun q => if q.id == ({ p with ref := some r, status := PayStatus.done } : Payment).id
        then { p with ref := some r, status := PayStatus.done } else q) hp
    rw [himg] at hmm
    exact hmm
  · intro it hit q hq
    rw [products_saveInvoice]
    exact settleItems_decrements (itemsOfInvoice s.db inv.id)
      (savePayment s.db { p with ref := some r, status := .done }) it q hit hnodup
      (fun j hj => hfound j hj) hq

theorem verify_success_settles_witness :
    (("AUTH" : String) ≠ "" ∧
      pendingWith ⟨[⟨1, "a", 7, 0, true, 10, false⟩], [⟨3, none, 7, 0, 9, "addr", ""⟩],
          [⟨3, 1, 2, 7, 0, 14, "a"⟩], [⟨4, 3, 7, none, .pending, "AUTH", none, none⟩]⟩ "AUTH"
        = [⟨4, 3, 7, none, .pending, "AUTH", none, none⟩]) ∧
    (verifyView ⟨⟨[⟨1, "a", 7, 0, true, 10, false⟩], [⟨3, none, 7, 0, 9, "addr", ""⟩],
        [⟨3, 1, 2, 7, 0, 14, "a"⟩], [⟨4, 3, 7, none, .pending, "AUTH", none, none⟩]⟩,
        [("1", 2)]⟩ (some "OK") (some "AUTH") (.resp (some ⟨some 100, 777⟩))).2
      = .success 777 ∧
    (verifyView ⟨⟨[⟨1, "a", 7, 0, true, 10, false⟩], [⟨3, none, 7, 0, 9, "addr", ""⟩],
        [⟨3, 1, 2, 7, 0, 14, "a"⟩], [⟨4, 3, 7, none, .pending, "AUTH", none, none⟩]⟩,
        [("1", 2)]⟩ (some "OK") (some "AUTH") (.resp (some ⟨some 100, 777⟩))).1.cart = [] := by
  have h := verify_success_settles
    ⟨⟨[⟨1, "a", 7, 0, true, 10, false⟩], [⟨3, none, 7, 0, 9, "addr", ""⟩],
      [⟨3, 1, 2, 7, 0, 14, "a"⟩], [⟨4, 3, 7, none, .pending, "AUTH", none, none⟩]⟩,
      [("1", 2)]⟩ "AUTH" ⟨4, 3, 7, none, .pending, "AUTH", none, none⟩ 777
    ⟨3, none, 7, 0, 9, "addr", ""⟩ (by decide) (by decide) (by decide) (by decide) (by decide)
  exact ⟨⟨by decide, by decide⟩, h.1, h.2.1⟩

/-- C4: submitting checkout with an empty cart and a valid form does persist a
    zero-total invoice and a payment, and the user sees no validation error —
    the flow proceeds to the gateway redirect. -/
theorem checkout_empty_cart_persists_invoice :
    (checkoutPost ⟨⟨[], [], [], []⟩, []⟩ ⟨"addr", ""⟩ (.resp (some 100) "AUTH7" none none)).2
        = .redirect "AUTH7" ∧
    ((checkoutPost ⟨⟨[], [], [], []⟩, []⟩ ⟨"addr", ""⟩
        (.resp (some 100) "AUTH7" none none)).1.db.invoices.map
        (fun i => (i.id, i.number, i.total))) = [(1, none, (0 : ℚ))] ∧
    (checkoutPost ⟨⟨[], [], [], []⟩, []⟩ ⟨"addr", ""⟩
        (.resp (some 100) "AUTH7" none none)).1.db.items = [] ∧
    ((checkoutPost ⟨⟨[], [], [], []⟩, []⟩ ⟨"addr", ""⟩
        (.resp (some 100) "AUTH7" none none)).1.db.payments.map (·.status))
      = [.pending] := by
  refine ⟨by decide, by decide, by decide, by decide⟩

/-- C5: invoice building is not atomic: when the item loop fails midway (here
    on a cart entry whose product does not exist) the invoice is already
    persisted while no invoice item and no payment is, leaving a dangling
    empty invoice behind an uncaught exception. -/
theorem checkout_not_atomic :
    (checkoutPost ⟨⟨[⟨1, "a", 30, 0, true, 4, false⟩], [], [], []⟩, [("1", 1), ("999", 2)]⟩
        ⟨"addr", ""⟩ (.resp (some 100) "AUTH8" none none)).2 = .raised .doesNotExist ∧
    ((checkoutPost ⟨⟨[⟨1, "a", 30, 0, true, 4, false⟩], [], [], []⟩, [("1", 1), ("999", 2)]⟩
        ⟨"addr", ""⟩ (.resp (some 100) "AUTH8" none none)).1.db.invoices.map
        (fun i => (i.id, i.number))) = [(1, none)] ∧
    (checkoutPost ⟨⟨[⟨1, "a", 30, 0, true, 4, false⟩], [], [], []⟩, [("1", 1), ("999", 2)]⟩
        ⟨"addr", ""⟩ (.resp (some 100) "AUTH8" none none)).1.db.items = [] ∧
    (checkoutPost ⟨⟨[⟨1, "a", 30, 0, true, 4, false⟩], [], [], []⟩, [("1", 1), ("999", 2)]⟩
        ⟨"addr", ""⟩ (.resp (some 100) "AUTH8" none none)).1.db.payments = [] := by
  refine ⟨by decide, by decide, by decide, by decide⟩

theorem verifyView_payments_shape (s : SState) (status : Option String) (au : Option String)
    (gw : GatewayVerify) :
    (verifyView s status au gw).1.db.payments = s.db.payments ∨
    ∃ p p' : Payment, p ∈ s.db.payments ∧ p.status = .pending ∧ p'.id = p.id ∧
      (p'.status = .done ∨ p'.status = .error) ∧
      (verifyView s status au gw).1.db.payments
        = s.db.payments.map (fun q => if q.id == p'.id then p' else q) := by
  cases au with
  | none => exact Or.inl rfl
  | some a =>
    by_cases ha : a = ""
    · left
      simp [verifyView, ha]
    · cases hpend : pendingWith s.db a with
      | nil =>
        left
        rw [verifyView_no_pending s status a gw ha hpend]
      | cons p rest =>
        cases rest with
        | cons p2 rest2 =>
          left
          simp [verifyView, hpend, ha]
        | nil =>
          obtain ⟨hp_mem, hp_auth, hp_pend⟩ := pendingWith_single_mem s.db a p hpend
          by_cases hst : status ≠ some "OK"
          · right
            refine ⟨p, { p with status := .error }, hp_mem, hp_pend, rfl, Or.inr rfl, ?_⟩
            rw [verifyView_cancel_eq s status a p gw ha hpend hst]
            rfl
          · push_neg at hst
            subst hst
            cases gw with
            | netFail =>
              left
              simp [verifyView, hpend, ha]
            | resp data =>
              cases data with
              | none =>
                left
                simp [verifyView, hpend, ha]
              | some d =>
                by_cases hcode : d.code = some 100
                · right
                  refine ⟨p, { p with ref := some d.ref_id, status := .done }, hp_mem, hp_pend,
                    rfl, Or.inl rfl, ?_⟩
                  cases hinv : findInvoice s.db p.invoiceId with
                  | none =>
                    simp only [verifyView, hpend, findInvoice_savePayment, hinv]
                    simp [ha, hcode, savePayment]
                  | some inv =>
                    rcases hset : settleItems (savePayment s.db
                        { p with ref := some d.ref_id, status := .done })
                        (itemsOfInvoice s.db inv.id) with ⟨db2, e2⟩
                    have hdb2 := settleItems_fixed_tables (savePayment s.db
                        { p with ref := some d.ref_id, status := .done })
                        (itemsOfInvoice s.db inv.id)
                    rw [hset] at hdb2
                    simp only at hdb2
                    cases e2 with
                    | none =>
                      simp only [verifyView, hpend, findInvoice_savePayment, hinv,
                        itemsOfInvoice_savePayment, maxInvoiceNumber_savePayment, hset]
                      simp [ha, hcode, payments_saveInvoice]
                      rw [hdb2.2.2]
                      simp [savePayment]
                    | some e =>
                      simp only [verifyView, hpend, findInvoice_savePayment, hinv,
                        itemsOfInvoice_savePayment, maxInvoiceNumber_savePayment, hset]
                      simp [ha, hcode]
                      rw [hdb2.2.2]
                      simp [savePayment]
                · right
                  refine ⟨p, { p with status := .error }, hp_mem, hp_pend, rfl, Or.inr rfl, ?_⟩
                  simp only [verifyView, hpend]
                  simp [ha, hcode, savePayment]

/-- C1: the settlement state machine is idempotent and its settled states are
    terminal: a verify with no matching pending payment is a pure no-op that
    renders the no-payment failure; re-verifying after a successful settlement
    hits exactly that branch, leaving Payment, Invoice and Product rows and
    the cart untouched; no verify run ever alters a non-pending payment; and
    any payment a verify run does alter was pending and moved to done or
    error. -/
theorem settlement_idempotent_and_terminal :
    (∀ (s : SState) (status : Option String) (a : String) (gw : GatewayVerify),
      a ≠ "" → pendingWith s.db a = [] →
      verifyView s status (some a) gw = (s, .noPayment)) ∧
    (∀ (s : SState) (a : String) (p : Payment) (r : Int) (inv : Invoice)
        (gw₂ : GatewayVerify),
      a ≠ "" → pendingWith s.db a = [p] →
      findInvoice s.db p.invoiceId = some inv →
      (∀ it ∈ itemsOfInvoice s.db inv.id, (findProduct s.db.products it.productId).isSome) →
      verifyView (verifyView s (some "OK") (some a) (.resp (some ⟨some 100, r⟩))).1
          (some "OK") (some a) gw₂
        = ((verifyView s (some "OK") (some a) (.resp (some ⟨some 100, r⟩))).1, .noPayment)) ∧
    (∀ (s : SState) (status au : Option String) (gw : GatewayVerify) (q : Payment),
      (s.db.payments.map (·.id)).Nodup → q ∈ s.db.payments → q.status ≠ .pending →
      q ∈ (verifyView s status au gw).1.db.payments) ∧
    (∀ (s : SState) (status au : Option String) (gw : GatewayVerify) (q' : Payment),
      q' ∈ (verifyView s status au gw).1.db.payments →
      ∃ q ∈ s.db.payments, q.id = q'.id ∧
        (q' = q ∨ (q.status = .pending ∧ (q'.status = .done ∨ q'.status = .error)))) := by
  refine ⟨fun s status a gw ha hpend => verifyView_no_pending s status a gw ha hpend,
    ?_, ?_, ?_⟩
  · intro s a p r inv gw₂ ha hpend hinv hfound
    have hsettle : (settleItems (savePayment s.db { p with ref := some r, status := .done })
        (itemsOfInvoice s.db inv.id)).2 = none :=
      settleItems_ok_of_found _ _ (fun it hit => hfound it hit)
    have heq := verifyView_success_eq s a p r inv ha hpend hinv hsettle
    apply verifyView_no_pending _ _ _ _ ha
    rw [heq]
    show pendingWith (saveInvoice _ _) a = []
    unfold pendingWith
    rw [payments_saveInvoice,
      (settleItems_fixed_tables (savePayment s.db { p with ref := some r, status := .done })
        (itemsOfInvoice s.db inv.id)).2.2]
    apply List.filter_eq_nil_iff.mpr
    intro y hy
    obtain ⟨q, hq, hyq⟩ := List.mem_map.mp hy
    by_cases hqi : (q.id == ({ p with ref := some r, status := PayStatus.done }
        : Payment).id) = true
    · rw [if_pos hqi] at hyq
      subst hyq
      simp
    · rw [if_neg hqi] at hyq
      subst hyq
      simp only [Bool.and_eq_true, beq_iff_eq, not_and]
      intro hqa hqs
      have hqp := pendingWith_single_unique s.db a p hpend q hq hqa (by
        cases hstat : q.status <;> simp_all)
      subst hqp
      simp at hqi
  · intro s status au gw q hnodup hq hqstat
    rcases verifyView_payments_shape s status au gw with heq | ⟨p, p', hp_mem, hp_pend,
      hid, hstat, heq⟩
    · rw [heq]
      exact hq
    · rw [heq]
      have hqp : q ≠ p := by
        intro hcontra
        rw [hcontra] at hqstat
        exact hqstat hp_pend
      have hqid : q.id ≠ p'.id := by
        rw [hid]
        intro hcontra
        exact hqp (List.inj_on_of_nodup_map hnodup hq hp_mem hcontra)
      have himg : (fun x => if x.id == p'.id then p' else x) q = q := by
        show (if (q.id == p'.id) = true then p' else q) = q
        rw [if_neg (by simp [hqid])]
      rw [← himg]
      exact List.mem_map_of_mem _ hq
  · intro s status au gw q' hq'
    rcases verifyView_payments_shape s status au gw with heq | ⟨p, p', hp_mem, hp_pend,
      hid, hstat, heq⟩
    · rw [heq] at hq'
      exact ⟨q', hq', rfl, Or.inl rfl⟩
    · rw [heq] at hq'
      obtain ⟨q, hq, hqimg⟩ := List.mem_map.mp hq'
      by_cases hqi : (q.id == p'.id) = true
      · rw [if_pos hqi] at hqimg
        subst hqimg
        exact ⟨p, hp_mem, hid.symm, Or.inr ⟨hp_pend, hstat⟩⟩
      · rw [if_neg hqi] at hqimg
        subst hqimg
        exact ⟨q, hq, rfl, Or.inl rfl⟩

theorem settlement_idempotent_and_terminal_witness :
    (("AUTH2" : String) ≠ "" ∧
      pendingWith ⟨[], [], [], [⟨4, 3, 7, none, .done, "AUTH2", none, none⟩]⟩ "AUTH2" = []) ∧
    verifyView ⟨⟨[], [], [], [⟨4, 3, 7, none, .done, "AUTH2", none, none⟩]⟩, [("1", 2)]⟩
        (some "OK") (some "AUTH2") (.resp (some ⟨some 100, 9⟩))
      = (⟨⟨[], [], [], [⟨4, 3, 7, none, .done, "AUTH2", none, none⟩]⟩, [("1", 2)]⟩,
         .noPayment) :=
  ⟨⟨by decide, by decide⟩,
    settlement_idempotent_and_terminal.1
      ⟨⟨[], [], [], [⟨4, 3, 7, none, .done, "AUTH2", none, none⟩]⟩, [("1", 2)]⟩
      (some "OK") "AUTH2" (.resp (some ⟨some 100, 9⟩)) (by decide) (by decide)⟩

theorem verifyView_invoices_shape (s : SState) (status : Option String) (au : Option String)
    (gw : GatewayVerify) :
    (verifyView s status au gw).1.db.invoices = s.db.invoices ∨
    ∃ r, (verifyView s status au gw).2 = .success r := by
  cases au with
  | none => exact Or.inl rfl
  | some a =>
    by_cases ha : a = ""
    · left
      simp [verifyView, ha]
    · cases hpend : pendingWith s.db a with
      | nil =>
        left
        rw [verifyView_no_pending s status a gw ha hpend]
      | cons p rest =>
        cases rest with
        | cons p2 rest2 =>
          left
          simp [verifyView, hpend, ha]
        | nil =>
          by_cases hst : status ≠ some "OK"
          · left
            rw [verifyView_cancel_eq s status a p gw ha hpend hst]
            rfl
          · push_neg at hst
            subst hst
            cases gw with
            | netFail =>
              left
              simp [verifyView, hpend, ha]
            | resp data =>
              cases data with
              | none =>
                left
                simp [verifyView, hpend, ha]
              | some d =>
                by_cases hcode : d.code = some 100
                · cases hinv : findInvoice s.db p.invoiceId with
                  | none =>
                    left
                    simp only [verifyView, hpend, findInvoice_savePayment, hinv]
                    simp [ha, hcode, savePayment]
                  | some inv =>
                    rcases hset : settleItems (savePayment s.db
                        { p with ref := some d.ref_id, status := .done })
                        (itemsOfInvoice s.db inv.id) with ⟨db2, e2⟩
                    have hdb2 := settleItems_fixed_tables (savePayment s.db
                        { p with ref := some d.ref_id, status := .done })
                        (itemsOfInvoice s.db inv.id)
                    rw [hset] at hdb2
                    simp only at hdb2
                    cases e2 with
                    | none =>
                      right
                      refine ⟨d.ref_id, ?_⟩
                      simp only [verifyView, hpend, findInvoice_savePayment, hinv,
                        itemsOfInvoice_savePayment, maxInvoiceNumber_savePayment, hset]
                      simp [ha, hcode]
                    | some e =>
                      left
                      simp only [verifyView, hpend, findInvoice_savePayment, hinv,
                        itemsOfInvoice_savePayment, maxInvoiceNumber_savePayment, hset]
                      simp [ha, hcode]
                      rw [hdb2.1]
                      rfl
                · left
                  simp only [verifyView, hpend]
                  simp [ha, hcode, savePayment]

theorem foldl_max_ge (as : List Int) : ∀ a : Int,
    a ≤ as.foldl max a ∧ ∀ n ∈ as, n ≤ as.foldl max a := by
  induction as with
  | nil =>
    intro a
    exact ⟨le_refl a, by simp⟩
  | cons b bs ih =>
    intro a
    rw [List.foldl_cons]
    obtain ⟨h1, h2⟩ := ih (max a b)
    refine ⟨le_trans (le_max_left a b) h1, ?_⟩
    intro n hn
    rcases List.mem_cons.mp hn with hh | hh
    · subst hh
      exact le_trans (le_max_right a _) h1
    · exact h2 n hh

theorem max?_ge_of_mem (l : List Int) (m : Int) (h : l.max? = some m) :
    ∀ n ∈ l, n ≤ m := by
  cases l with
  | nil => simp at h
  | cons a as =>
    intro n hn
    have hm : as.foldl max a = m := by
      simpa [List.max?] using h
    rcases List.mem_cons.mp hn with hh | hh
    · subst hh
      rw [← hm]
      exact (foldl_max_ge as n).1
    · rw [← hm]
      exact (foldl_max_ge as a).2 n hh

theorem max?_pos (l : List Int) (m : Int) (h : l.max? = some m)
    (hpos : ∀ n ∈ l, 0 < n) : 0 < m := by
  cases l with
  | nil => simp at h
  | cons a as =>
    have ha : 0 < a := hpos a (List.mem_cons_self a as)
    have := max?_ge_of_mem (a :: as) m h a (List.mem_cons_self a as)
    omega

theorem invoices_save_decompose (l : List Invoice) (inv inv' : Invoice) (iid : Nat)
    (hfind : l.find? (fun i => i.id == iid) = some inv)
    (hNodup : (l.map (·.id)).Nodup)
    (hid' : inv'.id = inv.id) :
    ∃ l₁ l₂, l = l₁ ++ inv :: l₂ ∧
      l.map (fun q => if q.id == inv'.id then inv' else q) = l₁ ++ inv' :: l₂ ∧
      (∀ y ∈ l₁, (y.id == iid) = false) ∧
      inv.id = iid ∧ iid ∉ l₂.map (·.id) := by
  have hinvid : inv.id = iid := by simpa using List.find?_some hfind
  obtain ⟨l₁, l₂, hl, hfalse⟩ := find?_decompose _ l inv hfind
  have hNodup' : ((l₁ ++ inv :: l₂).map (·.id)).Nodup := by rw [← hl]; exact hNodup
  rw [List.map_append, List.map_cons] at hNodup'
  have hmid := List.nodup_cons.mp (List.nodup_middle.mp hNodup')
  have hnotl2 : iid ∉ l₂.map (·.id) := by
    intro hcontra
    exact hmid.1 (by
      rw [← hinvid] at hcontra
      exact List.mem_append.mpr (Or.inr hcontra))
  refine ⟨l₁, l₂, hl, ?_, hfalse, hinvid, hnotl2⟩
  rw [hl, List.map_append, List.map_cons]
  have h1 : l₁.map (fun q => if q.id == inv'.id then inv' else q) = l₁ := by
    have hfun : ∀ y ∈ l₁, (if y.id == inv'.id then inv' else y) = id y := by
      intro y hy
      rw [if_neg (by
        rw [hid', hinvid]
        exact (by simp [hfalse y hy] : ¬(y.id == iid) = true))]
      rfl
    rw [List.map_congr_left hfun, List.map_id]
  have h2 : l₂.map (fun q => if q.id == inv'.id then inv' else q) = l₂ := by
    have hfun : ∀ y ∈ l₂, (if y.id == inv'.id then inv' else y) = id y := by
      intro y hy
      rw [if_neg (by
        rw [hid', hinvid]
        intro hcontra
        apply hnotl2
        rw [← (by simpa using hcontra : y.id = iid)]
        exact List.mem_map_of_mem _ hy)]
      rfl
    rw [List.map_congr_left hfun, List.map_id]
  rw [h1, h2, if_pos (by simp [hid'])]

/-- C3: invoice numbers are assigned exactly once, only at the first successful
    settlement, strictly positive, above every previously assigned number
    (settlement order), unique across invoices, never reassigned when already
    set, untouched on every non-success verify path, and checkout creates
    invoices only with a null number. -/
theorem invoice_numbering_spec :
    (∀ (s : SState) (a : String) (p : Payment) (r : Int) (inv : Invoice),
      a ≠ "" → pendingWith s.db a = [p] →
      findInvoice s.db p.invoiceId = some inv →
      (∀ it ∈ itemsOfInvoice s.db inv.id, (findProduct s.db.products it.productId).isSome) →
      (s.db.invoices.map (·.id)).Nodup →
      (s.db.invoices.filterMap (·.number)).Nodup →
      (∀ n ∈ s.db.invoices.filterMap (·.number), 0 < n) →
      inv.number = none →
      0 < (maxInvoiceNumber s.db).getD 0 + 1 ∧
      (∀ m ∈ s.db.invoices.filterMap (·.number),
        m < (maxInvoiceNumber s.db).getD 0 + 1) ∧
      findInvoice (verifyView s (some "OK") (some a)
            (.resp (some ⟨some 100, r⟩))).1.db inv.id
        = some { inv with number := some ((maxInvoiceNumber s.db).getD 0 + 1) } ∧
      (∀ j ∈ s.db.invoices, j.id ≠ inv.id →
        j ∈ (verifyView s (some "OK") (some a) (.resp (some ⟨some 100, r⟩))).1.db.invoices) ∧
      ((verifyView s (some "OK") (some a)
          (.resp (some ⟨some 100, r⟩))).1.db.invoices.filterMap (·.number)).Nodup ∧
      (∀ n ∈ (verifyView s (some "OK") (some a)
          (.resp (some ⟨some 100, r⟩))).1.db.invoices.filterMap (·.number), 0 < n)) ∧
    (∀ (s : SState) (a : String) (p : Payment) (r : Int) (inv : Invoice) (n : Int),
      a ≠ "" → pendingWith s.db a = [p] →
      findInvoice s.db p.invoiceId = some inv →
      (∀ it ∈ itemsOfInvoice s.db inv.id, (findProduct s.db.products it.productId).isSome) →
      (s.db.invoices.map (·.id)).Nodup →
      inv.number = some n →
      (verifyView s (some "OK") (some a) (.resp (some ⟨some 100, r⟩))).1.db.invoices
        = s.db.invoices) ∧
    (∀ (s : SState) (status au : Option String) (gw : GatewayVerify),
      (∀ r, (verifyView s status au gw).2 ≠ .success r) →
      (verifyView s status au gw).1.db.invoices = s.db.invoices) ∧
    (∀ (s : SState) (form : CheckoutForm) (gw : GatewayAuthorize) (j : Invoice),
      j ∈ (checkoutPost s form gw).1.db.invoices →
      j ∈ s.db.invoices ∨ j.number = none) := by
  refine ⟨?_, ?_, ?_, ?_⟩
  · intro s a p r inv ha hpend hinv hfound hNodupIds hNums hPos hnone
    have hsettle : (settleItems (savePayment s.db { p with ref := some r, status := .done })
        (itemsOfInvoice s.db inv.id)).2 = none :=
      settleItems_ok_of_found _ _ (fun it hit => hfound it hit)
    have heq := verifyView_success_eq s a p r inv ha hpend hinv hsettle
    obtain ⟨l₁, l₂, hl, hmap, hfalse, hinvid, hnotl2⟩ :=
      invoices_save_decompose s.db.invoices inv
        { inv with number := some ((maxInvoiceNumber s.db).getD 0 + 1) }
        p.invoiceId hinv hNodupIds rfl
    have hXinv : (verifyView s (some "OK") (some a)
        (.resp (some ⟨some 100, r⟩))).1.db.invoices = l₁
          ++ { inv with number := some ((maxInvoiceNumber s.db).getD 0 + 1) } :: l₂ := by
      rw [heq]
      show (saveInvoice _ _).invoices = _
      unfold saveInvoice
      rw [(settleItems_fixed_tables (savePayment s.db
          { p with ref := some r, status := .done }) (itemsOfInvoice s.db inv.id)).1]
      rw [if_pos hnone]
      exact hmap
    have holdnums : s.db.invoices.filterMap (·.number)
        = l₁.filterMap (·.number) ++ l₂.filterMap (·.number) := by
      rw [hl, List.filterMap_append, List.filterMap_cons, hnone]
    have hnewnums : (verifyView s (some "OK") (some a)
        (.resp (some ⟨some 100, r⟩))).1.db.invoices.filterMap (·.number)
        = l₁.filterMap (·.number)
          ++ ((maxInvoiceNumber s.db).getD 0 + 1) :: l₂.filterMap (·.number) := by
      rw [hXinv, List.filterMap_append, List.filterMap_cons]
    have hposN : 0 < (maxInvoiceNumber s.db).getD 0 + 1 := by
      cases hM : maxInvoiceNumber s.db with
      | none => simp
      | some m =>
        have := max?_pos _ m hM hPos
        simp only [Option.getD]
        omega
    have hltN : ∀ m ∈ s.db.invoices.filterMap (·.number),
        m < (maxInvoiceNumber s.db).getD 0 + 1 := by
      intro m hm
      cases hM : maxInvoiceNumber s.db with
      | none =>
        rw [show maxInvoiceNumber s.db
            = (s.db.invoices.filterMap (·.number)).max? from rfl] at hM
        rw [List.max?_eq_none_iff] at hM
        rw [hM] at hm
        simp at hm
      | some mx =>
        have hle := max?_ge_of_mem _ mx hM m hm
        simp only [Option.getD]
        omega
    refine ⟨hposN, hltN, ?_, ?_, ?_, ?_⟩
    · rw [show findInvoice (verifyView s (some "OK") (some a)
          (.resp (some ⟨some 100, r⟩))).1.db inv.id
          = ((verifyView s (some "OK") (some a)
            (.resp (some ⟨some 100, r⟩))).1.db.invoices.find?
            (fun i => i.id == inv.id)) from rfl, hXinv]
      rw [List.find?_append]
      have hl1none : l₁.find? (fun i => i.id == inv.id) = none := by
        apply List.find?_eq_none.mpr
        intro y hy
        rw [hinvid]
        simp [hfalse y hy]
      rw [hl1none]
      simp
    · intro j hj hjne
      rw [hXinv]
      have hjl : j ∈ l₁ ++ inv :: l₂ := by rw [← hl]; exact hj
      rcases List.mem_append.mp hjl with hh | hh
      · exact List.mem_append.mpr (Or.inl hh)
      · rcases List.mem_cons.mp hh with hh2 | hh2
        · exact absurd (by rw [hh2]) hjne
        · exact List.mem_append.mpr (Or.inr (List.mem_cons_of_mem _ hh2))
    · rw [hnewnums]
      apply List.nodup_middle.mpr
      apply List.nodup_cons.mpr
      constructor
      · intro hcontra
        have hmemold : (maxInvoiceNumber s.db).getD 0 + 1
            ∈ s.db.invoices.filterMap (·.number) := by
          rw [holdnums]
          exact hcontra
        have := hltN _ hmemold
        omega
      · rw [← holdnums]
        exact hNums
    · intro n hn
      rw [hnewnums] at hn
      rcases List.mem_append.mp hn with hh | hh
      · exact hPos n (by rw [holdnums]; exact List.mem_append.mpr (Or.inl hh))
      · rcases List.mem_cons.mp hh with hh2 | hh2
        · rw [hh2]; exact hposN
        · exact hPos n (by rw [holdnums]; exact List.mem_append.mpr (Or.inr hh2))
  · intro s a p r inv n ha hpend hinv hfound hNodupIds hsome
    have hsettle : (settleItems (savePayment s.db { p with ref := some r, status := .done })
        (itemsOfInvoice s.db inv.id)).2 = none :=
      settleItems_ok_of_found _ _ (fun it hit => hfound it hit)
    have heq := verifyView_success_eq s a p r inv ha hpend hinv hsettle
    have hinvid : inv.id = p.invoiceId := by simpa using List.find?_some hinv
    rw [heq]
    show (saveInvoice _ _).invoices = _
    unfold saveInvoice
    rw [(settleItems_fixed_tables (savePayment s.db
        { p with ref := some r, status := .done }) (itemsOfInvoice s.db inv.id)).1]
    rw [if_neg (by rw [hsome]; simp)]
    apply keyed_replace_id Invoice.id inv
    · rw [hinvid]
      exact hinv
    · exact hNodupIds
  · intro s status au gw hnot
    rcases verifyView_invoices_shape s status au gw with h | ⟨r, hr⟩
    · exact h
    · exact absurd hr (hnot r)
  · intro s form gw j hj
    by_cases hv : invoiceFormValid form
    · unfold checkoutPost at hj
      rw [if_pos hv] at hj
      cases hb : buildInvoiceItems s.db.products (nextId (s.db.invoices.map (·.id))) s.cart with
      | error e =>
        simp only [hb] at hj
        rcases List.mem_append.mp hj with hh | hh
        · exact Or.inl hh
        · right
          rcases List.mem_cons.mp hh with hh2 | hh2
          · rw [hh2]
          · simp at hh2
      | ok items =>
        simp only [hb] at hj
        cases gw with
        | netFail msg =>
          simp only at hj
          rcases List.mem_append.mp hj with hh | hh
          · exact Or.inl hh
          · right
            rcases List.mem_cons.mp hh with hh2 | hh2
            · rw [hh2]
            · simp at hh2
        | resp dataCode dataAuthority errCode errMsg =>
          simp only at hj
          by_cases hc : dataCode = some 100
          · rw [if_pos hc] at hj
            rcases List.mem_append.mp hj with hh | hh
            · exact Or.inl hh
            · right
              rcases List.mem_cons.mp hh with hh2 | hh2
              · rw [hh2]
              · simp at hh2
          · rw [if_neg hc] at hj
            rcases List.mem_append.mp hj with hh | hh
            · exact Or.inl hh
            · right
              rcases List.mem_cons.mp hh with hh2 | hh2
              · rw [hh2]
              · simp at hh2
    · unfold checkoutPost at hj
      rw [if_neg hv] at hj
      exact Or.inl hj

theorem invoice_numbering_spec_witness :
    (("AUTH" : String) ≠ "" ∧
      pendingWith ⟨[⟨1, "a", 7, 0, true, 10, false⟩], [⟨3, none, 7, 0, 9, "addr", ""⟩],
          [⟨3, 1, 2, 7, 0, 14, "a"⟩], [⟨4, 3, 7, none, .pending, "AUTH", none, none⟩]⟩ "AUTH"
        = [⟨4, 3, 7, none, .pending, "AUTH", none, none⟩]) ∧
    (0 : Int) < (maxInvoiceNumber ⟨[⟨1, "a", 7, 0, true, 10, false⟩],
        [⟨3, none, 7, 0, 9, "addr", ""⟩], [⟨3, 1, 2, 7, 0, 14, "a"⟩],
        [⟨4, 3, 7, none, .pending, "AUTH", none, none⟩]⟩).getD 0 + 1 ∧
    findInvoice (verifyView ⟨⟨[⟨1, "a", 7, 0, true, 10, false⟩],
          [⟨3, none, 7, 0, 9, "addr", ""⟩], [⟨3, 1, 2, 7, 0, 14, "a"⟩],
          [⟨4, 3, 7, none, .pending, "AUTH", none, none⟩]⟩, [("1", 2)]⟩
        (some "OK") (some "AUTH") (.resp (some ⟨some 100, 777⟩))).1.db 3
      = some ⟨3, some ((maxInvoiceNumber ⟨[⟨1, "a", 7, 0, true, 10, false⟩],
          [⟨3, none, 7, 0, 9, "addr", ""⟩], [⟨3, 1, 2, 7, 0, 14, "a"⟩],
          [⟨4, 3, 7, none, .pending, "AUTH", none, none⟩]⟩).getD 0 + 1), 7, 0, 9,
          "addr", ""⟩ := by
  have h := invoice_numbering_spec.1
    ⟨⟨[⟨1, "a", 7, 0, true, 10, false⟩], [⟨3, none, 7, 0, 9, "addr", ""⟩],
      [⟨3, 1, 2, 7, 0, 14, "a"⟩], [⟨4, 3, 7, none, .pending, "AUTH", none, none⟩]⟩,
      [("1", 2)]⟩ "AUTH" ⟨4, 3, 7, none, .pending, "AUTH", none, none⟩ 777
    ⟨3, none, 7, 0, 9, "addr", ""⟩ (by decide) (by decide) (by decide) (by decide)
    (by decide) (by decide) (by decide) (by decide)
  exact ⟨⟨by decide, by decide⟩, h.1, h.2.2.1⟩

/-- C10: add_to_cart is a no-op on out-of-stock or disabled products and
    otherwise bumps exactly the target key by one. -/
theorem add_to_cart_spec (cart : Cart) (obj : Product) :
    (¬(obj.count > 0 ∧ obj.enabled = true) → add_to_cart cart obj = cart) ∧
    ((obj.count > 0 ∧ obj.enabled = true) →
      dictGetD (add_to_cart cart obj) (toString obj.id) 0
          = dictGetD cart (toString obj.id) 0 + 1 ∧
        ∀ k, k ≠ toString obj.id → dictGet (add_to_cart cart obj) k = dictGet cart k) := by
  constructor
  · intro h
    unfold add_to_cart
    rw [if_neg]
    simp only [Bool.and_eq_true, decide_eq_true_eq]
    exact fun hc => h ⟨hc.1, hc.2⟩
  · intro h
    have hcond : (decide (obj.count > 0) && obj.enabled) = true := by
      simp [h.1, h.2]
    constructor
    · unfold add_to_cart
      rw [if_pos hcond]
      unfold dictGetD
      rw [dictGet_dictSet_self]
      rfl
    · intro k hk
      unfold add_to_cart
      rw [if_pos hcond]
      exact dictGet_dictSet_ne cart (toString obj.id) k _ hk

theorem add_to_cart_spec_witness :
    ((2 : Int) > 0 ∧ true = true) ∧
      dictGetD (add_to_cart [("5", 2)] ⟨5, "p", 100, 0, true, 2, false⟩) "5" 0
        = dictGetD [(("5" : String), (2 : Int))] "5" 0 + 1 :=
  ⟨⟨by decide, rfl⟩,
    ((add_to_cart_spec [("5", 2)] ⟨5, "p", 100, 0, true, 2, false⟩).2 ⟨by decide, rfl⟩).1⟩

end Store
